import Mathlib

/-!
Verification development for the video_comments extension.

The JavaScript sources are shallowly embedded:
* `src/content-filter.js` — the `ContentFilter` class (profanity list, obfuscation
  patterns, spam patterns, `filterContent`).  JS regexes are embedded as explicit
  matcher functions; global (`/g`) regexes carry their persistent `lastIndex`
  state, as the JS objects do.  Text is modelled as `List Char` (ASCII fragment).
* `src/background.js` — the rate limiter, `handleSaveComment`,
  `handleLoadComments`, `handleLikeComment`, `cacheCommentLocally`.
* `src/content.js` — `getRealTimestamp` and the guard in `handleAddComment`.
-/

namespace VC

/-! ### JS character classes (ASCII fragment) -/

/-- JS `\s` restricted to ASCII whitespace. -/
def isSpaceJS (c : Char) : Bool :=
  c == ' ' || c == '\t' || c == '\n' || c == '\r' || c == '\x0b' || c == '\x0c'

/-- JS `\w`, i.e. `[A-Za-z0-9_]`. -/
def isWordJS (c : Char) : Bool :=
  c.isAlpha || c.isDigit || c == '_'

/-- JS line terminators, excluded by `.` without the `s` flag. -/
def isLineTerm (c : Char) : Bool :=
  c == '\n' || c == '\r' || c == Char.ofNat 0x2028 || c == Char.ofNat 0x2029

/-- Case-insensitive character comparison (the `i` flag; ASCII canonicalisation). -/
def ciEq (a b : Char) : Bool := a.toLower == b.toLower

/-- Length of the maximal leading run of characters satisfying `p` (greedy `x+`/`x*`). -/
def runLen (p : Char → Bool) : List Char → Nat
  | [] => 0
  | c :: cs => if p c then runLen p cs + 1 else 0

/-- Exact prefix check. -/
def startsWithChars : List Char → List Char → Bool
  | [], _ => true
  | _ :: _, [] => false
  | p :: ps, x :: xs => p == x && startsWithChars ps xs

/-- Case-insensitive prefix check. -/
def startsWithCI : List Char → List Char → Bool
  | [], _ => true
  | _ :: _, [] => false
  | p :: ps, x :: xs => ciEq x p && startsWithCI ps xs

/-- JS `String.prototype.includes` (substring test). -/
def containsSub (w : List Char) : List Char → Bool
  | [] => startsWithChars w []
  | c :: cs => startsWithChars w (c :: cs) || containsSub w cs

/-- JS `String.prototype.trim` (ASCII whitespace). -/
def jsTrim (s : List Char) : List Char :=
  ((s.dropWhile isSpaceJS).reverse.dropWhile isSpaceJS).reverse

/-! ### Matchers for the concrete regexes of `content-filter.js`

A matcher `m s j` returns the length of the (greedy, engine-preferred) match of
the regex at position `j` of `s`, or `none` when the regex does not match at
position `j`. -/

/-- Greedy match of a chain `c1+ c2+ ... cn+` (case-insensitive); adjacent equal
letters in the source pattern are merged into a `(letter, minimum‑count)` pair
(`/a+s+s+h+o+l+e+/` becomes `[(a,1),(s,2),(h,1),(o,1),(l,1),(e,1)]`): the engine
consumes each maximal letter run whole, since the following atom rejects the
run letter. -/
def plusChain : List (Char × Nat) → List Char → Option Nat
  | [], _ => some 0
  | (c, m) :: rest, s =>
    let r := runLen (fun x => ciEq x c) s
    if r < m then none
    else (plusChain rest (s.drop r)).map (fun n => r + n)

/-- Match a sequence of single-character classes, one character each. -/
def classSeq : List (Char → Bool) → List Char → Option Nat
  | [], _ => some 0
  | _ :: _, [] => none
  | p :: ps, c :: cs => if p c then (classSeq ps cs).map (· + 1) else none

/-- Greedy match of `c1 \s* c2 \s* ... cn` (case-insensitive), e.g.
`/f\s*u\s*c\s*k/`.  The greedy `\s*` consumes the whole whitespace run; the
following letter cannot match whitespace, so no backtracking arises. -/
def sepChain : List Char → List Char → Option Nat
  | [], _ => some 0
  | _ :: _, [] => none
  | c :: rest, x :: xs =>
    if ciEq x c then
      match rest with
      | [] => some 1
      | _ :: _ =>
        let w := runLen isSpaceJS xs
        (sepChain rest (xs.drop w)).map (fun n => n + w + 1)
    else none

/-- Lift a suffix-based matcher to an absolute-position matcher. -/
def suffixMatcher (f : List Char → Option Nat) : List Char → Nat → Option Nat :=
  fun s j => f (s.drop j)

/-- `/(.)\1{10,}/gi` — a character (not a line terminator) followed by at least
ten case-insensitive repetitions of itself; greedy, so the maximal run. -/
def spamRepeatMatch (s : List Char) (j : Nat) : Option Nat :=
  match s.drop j with
  | [] => none
  | c :: rest =>
    if isLineTerm c then none
    else
      let r := runLen (fun x => ciEq x c) rest
      if 10 ≤ r then some (r + 1) else none

/-- `/(https?:\/\/[^\s]+)/gi`. -/
def spamUrlMatch (s : List Char) (j : Nat) : Option Nat :=
  let t := s.drop j
  if startsWithCI ['h', 't', 't', 'p'] t then
    let rest4 := t.drop 4
    if startsWithCI ['s', ':', '/', '/'] rest4 then
      let r := runLen (fun c => !isSpaceJS c) (t.drop 8)
      if 1 ≤ r then some (8 + r) else none
    else if startsWithCI [':', '/', '/'] rest4 then
      let r := runLen (fun c => !isSpaceJS c) (t.drop 7)
      if 1 ≤ r then some (7 + r) else none
    else none
  else none

/-- Iterations of `(\s+W)` (for the backreference `\1 = W`, compared
case-insensitively under the `i` flag): returns (count, consumed length). -/
def repIters (w : List Char) : Nat → List Char → Nat × Nat
  | 0, _ => (0, 0)
  | fuel + 1, t =>
    let sp := runLen isSpaceJS t
    if 1 ≤ sp && startsWithCI w (t.drop sp) then
      let (k, c) := repIters w fuel (t.drop (sp + w.length))
      (k + 1, sp + w.length + c)
    else (0, 0)

/-- `/(\b\w+\b)(\s+\1){3,}/gi` — a whole word repeated at least three more times,
separated by whitespace.  The trailing `\b` after `\w+` forces the capture to be
the maximal word run. -/
def spamRepeatWordMatch (s : List Char) (j : Nat) : Option Nat :=
  let prevOk : Bool :=
    match j with
    | 0 => true
    | j' + 1 => !(isWordJS (s.getD j' ' '))
  let t := s.drop j
  let w := runLen isWordJS t
  if prevOk && 1 ≤ w then
    let word := t.take w
    let (k, c) := repIters word (t.drop w).length (t.drop w)
    if 3 ≤ k then some (w + c) else none
  else none

/-- `/[A-Z]{20,}/g` — at least twenty consecutive upper-case letters (no `i` flag). -/
def spamCapsMatch (s : List Char) (j : Nat) : Option Nat :=
  let r := runLen (fun c => decide ('A' ≤ c) && decide (c ≤ 'Z')) (s.drop j)
  if 20 ≤ r then some r else none

/-! ### JS regex object semantics: `test` with `lastIndex`, global `replace` -/

/-- First match at a position `≥ j`, scanning left to right. -/
def scanFrom (m : List Char → Nat → Option Nat) (s : List Char) : Nat → Nat → Option (Nat × Nat)
  | _, 0 => none
  | j, fuel + 1 =>
    match m s j with
    | some len => some (j, len)
    | none => scanFrom m s (j + 1) fuel

/-- `RegExp.prototype.test` for a `/g` regex: search starts at `lastIndex`; on a
match, `lastIndex` becomes the match end; on failure (or `lastIndex` past the
end), `lastIndex` resets to 0.  Returns (result, new `lastIndex`). -/
def jsTest (m : List Char → Nat → Option Nat) (s : List Char) (li : Nat) : Bool × Nat :=
  if s.length < li then (false, 0)
  else
    match scanFrom m s li (s.length + 1 - li) with
    | some (j, len) => (true, j + len)
    | none => (false, 0)

/-- Replace every match of a global regex by a same-length asterisk mask,
scanning from position 0 (JS `String.prototype.replace` with `/g` ignores and
then resets `lastIndex`).  All matchers used here match at least one character. -/
def maskFrom (m : List Char → Nat → Option Nat) (s : List Char) : Nat → Nat → List Char
  | 0, _ => []
  | fuel + 1, j =>
    if s.length ≤ j then []
    else
      match m s j with
      | some len => List.replicate len '*' ++ maskFrom m s fuel (j + len)
      | none => s.getD j ' ' :: maskFrom m s fuel (j + 1)

/-- `text.replace(pattern, (match) => asterisks(match.length))`. -/
def jsReplaceMask (m : List Char → Nat → Option Nat) (s : List Char) : List Char :=
  maskFrom m s s.length 0

/-! ### `ContentFilter` (src/content-filter.js) -/

/-- `this.profanityList` (constructor, lines 4–11). -/
def profanityList : List String :=
  ["fuck", "shit", "bitch", "ass", "damn", "cunt",
   "crap", "piss", "bastard", "slut", "whore",
   "n***a", "f****t", "r****d"]

/-- `this.patterns` (constructor, lines 14–27), in source order. -/
def profMatchers : List (List Char → Nat → Option Nat) :=
  [ suffixMatcher (plusChain [('f', 1), ('u', 1), ('c', 1), ('k', 1)]),
    suffixMatcher (plusChain [('s', 1), ('h', 1), ('i', 1), ('t', 1)]),
    suffixMatcher (plusChain [('b', 1), ('i', 1), ('t', 1), ('c', 1), ('h', 1)]),
    suffixMatcher (plusChain [('a', 1), ('s', 2), ('h', 1), ('o', 1), ('l', 1), ('e', 1)]),
    suffixMatcher (plusChain [('d', 1), ('a', 1), ('m', 1), ('n', 1)]),
    suffixMatcher (classSeq
      [fun c => ciEq c 'f', fun c => ciEq c 'u' || c == '*' || c == '@',
       fun c => ciEq c 'c', fun c => ciEq c 'k']),
    suffixMatcher (classSeq
      [fun c => ciEq c 's', fun c => ciEq c 'h', fun c => ciEq c 'i' || c == '*',
       fun c => ciEq c 't']),
    suffixMatcher (classSeq
      [fun c => ciEq c 'b', fun c => c == '*' || ciEq c 'i', fun c => ciEq c 't',
       fun c => ciEq c 'c', fun c => ciEq c 'h']),
    suffixMatcher (sepChain ['f', 'u', 'c', 'k']),
    suffixMatcher (sepChain ['s', 'h', 'i', 't']) ]

/-- Validity of `new RegExp(word)` for words made of letters and `*`: a `*` is a
quantifier and needs a preceding atom, so a word is rejected exactly when a `*`
appears first or directly after another `*` (SyntaxError "nothing to repeat"). -/
def validWordRegexAux : Bool → List Char → Bool
  | _, [] => true
  | prevQuant, c :: rest =>
    if c == '*' then !prevQuant && validWordRegexAux true rest
    else validWordRegexAux false rest

/-- Whether `new RegExp(word, "gi")` succeeds (for the words of `profanityList`). -/
def validWordRegex (w : List Char) : Bool := validWordRegexAux true w

/-- Mask every case-insensitive occurrence of the literal word `w`
(`new RegExp(word, "gi")` replace), leftmost first, non-overlapping. -/
def maskWordFrom (w : List Char) : Nat → List Char → List Char
  | 0, _ => []
  | _ + 1, [] => []
  | fuel + 1, c :: cs =>
    if startsWithCI w (c :: cs) && 1 ≤ w.length then
      List.replicate w.length '*' ++ maskWordFrom w fuel ((c :: cs).drop w.length)
    else c :: maskWordFrom w fuel cs

/-- Result record of `checkProfanity`. -/
structure ProfResult where
  isClean : Bool
  filtered : List Char
  violations : List String
deriving DecidableEq

/-- The word-list loop of `checkProfanity` (lines 91–99).  Throws (as the JS
does) when a matched word is an invalid regular expression. -/
def wordPass : List (List Char) → List Char → ProfResult → Except String ProfResult
  | [], _, acc => .ok acc
  | w :: ws, lowerText, acc =>
    if containsSub w lowerText then
      if validWordRegex w then
        wordPass ws lowerText
          { isClean := false
            filtered := maskWordFrom w acc.filtered.length acc.filtered
            violations := acc.violations ++ ["Inappropriate language: " ++ String.mk w] }
      else .error ("SyntaxError: Invalid regular expression: " ++ String.mk w)
    else wordPass ws lowerText acc

/-- The pattern loop of `checkProfanity` (lines 102–108).  Each stored `/g`
regex carries a `lastIndex`; `test` updates it, and on a hit the global
`replace` resets it to 0.  Note the source assigns
`result.filtered = text.replace(pattern, ...)` — replacing in the original
`text`, not in the accumulated `result.filtered`. -/
def patPass : List (List Char → Nat → Option Nat) → List Nat → List Char → ProfResult →
    ProfResult × List Nat
  | [], _, _, acc => (acc, [])
  | _ :: _, [], _, acc => (acc, [])
  | m :: ms, li :: lis, text, acc =>
    let (hit, li2) := jsTest m text li
    if hit then
      let acc2 : ProfResult :=
        { isClean := false
          filtered := jsReplaceMask m text
          violations := acc.violations ++ ["Inappropriate language detected"] }
      let (accF, lisF) := patPass ms lis text acc2
      (accF, 0 :: lisF)
    else
      let (accF, lisF) := patPass ms lis text acc
      (accF, li2 :: lisF)

/-- `checkProfanity` (lines 81–111), with the persistent `lastIndex` state of
`this.patterns` threaded explicitly. -/
def checkProfanity (profLI : List Nat) (text : List Char) :
    Except String (ProfResult × List Nat) := do
  let lowerText := text.map Char.toLower
  let afterWords ← wordPass (profanityList.map String.toList) lowerText
    { isClean := true, filtered := text, violations := [] }
  return patPass profMatchers profLI text afterWords

/-- Result record of `checkSpam`. -/
structure SpamResult where
  isClean : Bool
  violations : List String
deriving DecidableEq

/-- `this.spamPatterns` (lines 30–35) paired with the violation message chosen
by the identity comparisons of lines 124–132. -/
def spamMatchers : List ((List Char → Nat → Option Nat) × String) :=
  [ (spamRepeatMatch, "Excessive repeated characters"),
    (spamUrlMatch, "URLs not allowed"),
    (spamRepeatWordMatch, "Excessive repeated words"),
    (spamCapsMatch, "Excessive capital letters") ]

/-- The loop of `checkSpam` (lines 120–134): `test` only, so every hit leaves
the `lastIndex` of the pattern at the match end — state that persists to the next
call of the filter. -/
def spamPass : List ((List Char → Nat → Option Nat) × String) → List Nat → List Char →
    SpamResult → SpamResult × List Nat
  | [], _, _, acc => (acc, [])
  | _ :: _, [], _, acc => (acc, [])
  | (m, msg) :: ms, li :: lis, text, acc =>
    let (hit, li2) := jsTest m text li
    let acc2 : SpamResult :=
      if hit then { isClean := false, violations := acc.violations ++ [msg] } else acc
    let (accF, lisF) := spamPass ms lis text acc2
    (accF, li2 :: lisF)

/-- `checkSpam` (lines 114–137). -/
def checkSpam (spamLI : List Nat) (text : List Char) : SpamResult × List Nat :=
  spamPass spamMatchers spamLI text { isClean := true, violations := [] }

/-- `ModerationVerdict` — the result object of `filterContent`. -/
structure Verdict where
  isClean : Bool
  filteredText : List Char
  violations : List String
  action : String
deriving DecidableEq

/-- The mutable regex state of one `ContentFilter` instance: the `lastIndex` of
each stored `/g` pattern, in source order. -/
structure FilterSt where
  profLI : List Nat
  spamLI : List Nat
deriving DecidableEq

/-- State of a freshly constructed `ContentFilter`. -/
def initFilterSt : FilterSt := ⟨List.replicate 10 0, List.replicate 4 0⟩

/-- `filterContent` (lines 39–78).  Returns the verdict and the instance state
after the call; `.error` models an uncaught JS exception. -/
def filterContent (st : FilterSt) (text : List Char) :
    Except String (Verdict × FilterSt) := do
  let r0 : Verdict := { isClean := true, filteredText := text, violations := [], action := "allow" }
  let (prof, profLI2) ← checkProfanity st.profLI text
  let r1 : Verdict :=
    if prof.isClean then r0
    else { isClean := false
           filteredText := prof.filtered
           violations := r0.violations ++ prof.violations
           action := "block" }
  let (spam, spamLI2) := checkSpam st.spamLI text
  let r2 : Verdict :=
    if spam.isClean then r1
    else { r1 with
           isClean := false
           violations := r1.violations ++ spam.violations
           action := "block" }
  let r3 : Verdict :=
    if 500 < text.length then
      { r2 with
        isClean := false
        violations := r2.violations ++ ["Text too long (max 500 characters)"]
        action := "block" }
    else r2
  let r4 : Verdict :=
    if (jsTrim text).length < 2 then
      { r3 with
        isClean := false
        violations := r3.violations ++ ["Text too short"]
        action := "block" }
    else r3
  return (r4, ⟨profLI2, spamLI2⟩)

/-! ### Rate limiter (src/background.js, lines 10–40) -/

/-- One row of `rateLimiter.limits`. -/
structure Limit where
  max : Nat
  window : Int
deriving DecidableEq

/-- The `rateLimiter.limits` table. -/
def limits (a : String) : Option Limit :=
  if a = "comment" then some ⟨10, 60000⟩
  else if a = "like" then some ⟨30, 60000⟩
  else if a = "reply" then some ⟨20, 60000⟩
  else none

/-- The core of `rateLimiter.check` on one `(userId, action)` timestamp list
(lines 26–38): prune entries with `now - time ≥ window`; reject when the
remaining count reaches `max`, otherwise record `now` and admit. -/
def rlCheck (lim : Limit) (l : List Int) (now : Int) : Bool × List Int :=
  let pruned := l.filter (fun t => decide (now - t < lim.window))
  if lim.max ≤ pruned.length then (false, pruned)
  else (true, pruned ++ [now])

/-- The `rateLimiter.actions` nested map, flattened to `(userId, action)` keys.
A missing key stands for the lazily-created empty array. -/
abbrev RLMap := List ((String × String) × List Int)

/-- Read the timestamp list for a key (missing key = `[]`). -/
def rlGet (m : RLMap) (u a : String) : List Int :=
  match m with
  | [] => []
  | e :: rest => if e.1 = (u, a) then e.2 else rlGet rest u a

/-- Store the timestamp list for a key. -/
def rlSet (m : RLMap) (u a : String) (v : List Int) : RLMap :=
  match m with
  | [] => [((u, a), v)]
  | e :: rest => if e.1 = (u, a) then ((u, a), v) :: rest else e :: rlSet rest u a v

/-- `rateLimiter.check(userId, action)` at time `now`, with `lim` the limits-table
row for `action`. -/
def rlMapCheck (lim : Limit) (m : RLMap) (u a : String) (now : Int) : Bool × RLMap :=
  let (ok, l2) := rlCheck lim (rlGet m u a) now
  (ok, rlSet m u a l2)

/-! ### Annotation records and the local cache (src/background.js) -/

/-- A reply as loaded into a comment (`replies` entries of `handleLoadComments`). -/
structure ReplyRec where
  id : String
  text : String
  authorId : String
  authorName : String
  createdAt : Int
deriving DecidableEq

/-- A comment as held in the local cache and in load responses. -/
structure CommentRec where
  id : String
  text : String
  timestamp : Int
  authorId : String
  authorName : String
  likes : Nat
  createdAt : Int
  platform : String
  replies : List ReplyRec
  likedByUser : Bool
deriving DecidableEq

/-- A comment record as stored remotely under `comments/{videoId}` (the shape
POSTed by `handleSaveComment`, no id yet). -/
structure CRec where
  text : String
  timestamp : Int
  authorId : String
  authorName : String
  likes : Nat
  createdAt : Int
  platform : String
deriving DecidableEq

/-- A reply record as stored remotely under `replies/{commentId}`. -/
structure RRec where
  text : String
  authorId : String
  authorName : String
  createdAt : Int
deriving DecidableEq

/-- `chrome.storage.local`, restricted to the per-video keys
`comments_{videoId}`; `none` = key never written. -/
abbrev Cache := String → Option (List CommentRec)

/-- `comments.sort((a, b) => a.timestamp - b.timestamp)` — ascending by the
stored playback position.  JS `Array.prototype.sort` is modelled by insertion
sort with the ordering of the comparator. -/
def sortComments (l : List CommentRec) : List CommentRec :=
  List.insertionSort (fun a b => a.timestamp ≤ b.timestamp) l

instance : IsTotal CommentRec (fun a b => a.timestamp ≤ b.timestamp) :=
  ⟨fun a b => le_total a.timestamp b.timestamp⟩

instance : IsTrans CommentRec (fun a b => a.timestamp ≤ b.timestamp) :=
  ⟨fun _ _ _ h1 h2 => le_trans h1 h2⟩

/-- `cacheCommentLocally(videoId, comment)` (lines 424–434): read the cached
list, push the comment, re-sort by timestamp, write back. -/
def cacheCommentLocally (cache : Cache) (videoId : String) (c : CommentRec) : Cache :=
  let upd := sortComments ((cache videoId).getD [] ++ [c])
  fun k => if k = videoId then some upd else cache k

/-! ### `handleLoadComments` (src/background.js, lines 231–289) -/

/-- The remote responses consumed by one successful run of the try block:
the comments object for the key, and per-comment replies and likes objects
(`none` = JSON `null`). -/
structure LoadOk where
  data : Option (List (String × CRec))
  replies : String → Option (List (String × RRec))
  likes : String → Option (List (String × Bool))

/-- Outcome of the remote interaction: any network failure anywhere in the try
block lands in the catch handler. -/
inductive LoadRemote
  | fail
  | ok (o : LoadOk)

/-- Response of `handleLoadComments` (the catch path also reports success). -/
structure LoadResp where
  success : Bool
  comments : List CommentRec
deriving DecidableEq

/-- Attach the fetched replies to a comment (lines 256–266). -/
def applyReplies (o : LoadOk) (c : CommentRec) : CommentRec :=
  match o.replies c.id with
  | some rs =>
    { c with replies := rs.map (fun e => ⟨e.1, e.2.text, e.2.authorId, e.2.authorName, e.2.createdAt⟩) }
  | none => c

/-- Overwrite the like count and `likedByUser` when a likes object exists
(lines 268–277; `likedByUser = currentUser && likesData[uid] === true`). -/
def applyLikes (uid : Option String) (o : LoadOk) (c : CommentRec) : CommentRec :=
  match o.likes c.id with
  | some ls =>
    { c with
      likes := ls.length
      likedByUser :=
        match uid with
        | some u => ls.lookup u == some true
        | none => false }
  | none => c

/-- The per-comment enrichment loop body (lines 254–278): the replies fetch,
then the likes fetch, both keyed by the id of the comment. -/
def enrich (uid : Option String) (o : LoadOk) (c : CommentRec) : CommentRec :=
  applyLikes uid o (applyReplies o c)

/-- `handleLoadComments(videoId)`: fetch, map ids in, sort by timestamp, enrich
with replies/likes, cache, return; a `null` comments object returns an empty
list without touching the cache; any failure returns the cached snapshot (or
`[]`) with `success: true`. -/
def handleLoadComments (uid : Option String) (r : LoadRemote) (cache : Cache)
    (videoId : String) : LoadResp × Cache :=
  match r with
  | .fail => (⟨true, (cache videoId).getD []⟩, cache)
  | .ok o =>
    match o.data with
    | none => (⟨true, []⟩, cache)
    | some data =>
      let base := data.map (fun e =>
        ({ id := e.1, text := e.2.text, timestamp := e.2.timestamp
           authorId := e.2.authorId, authorName := e.2.authorName
           likes := e.2.likes, createdAt := e.2.createdAt, platform := e.2.platform
           replies := [], likedByUser := false } : CommentRec))
      let final := (sortComments base).map (enrich uid o)
      (⟨true, final⟩, fun k => if k = videoId then some final else cache k)

/-! ### `handleSaveComment` (src/background.js, lines 153–228) -/

/-- The user profile under `users/{uid}` as read by the save path
(`none` on a field = property absent / falsy in JS). -/
structure UserRec where
  banned : Bool
  displayName : Option String
  commentCount : Option Int
deriving DecidableEq

/-- Remote writes and reads issued by the save path, in order. -/
inductive RemoteOp
  | getUser (uid : String)
  | postComment (videoId : String) (c : CRec)
  | putCommentCount (uid : String) (n : Int)
deriving DecidableEq

/-- Environment of one `handleSaveComment` run: the clock, the GET response for
the user profile (`none` = JSON `null`), and the id the POST returns. -/
structure SaveEnv where
  now : Int
  userData : Option UserRec
  postName : String

/-- The message payload `commentData`. -/
structure SaveData where
  videoId : String
  text : String
  timestamp : ℚ
  platform : String

/-- Response of `handleSaveComment`. -/
structure SaveResp where
  success : Bool
  error : Option String
  comment : Option CommentRec
deriving DecidableEq

/-- `rateLimiter.limits.comment`. -/
def commentLimit : Limit := ⟨10, 60000⟩

/-- `handleSaveComment(commentData)` with `currentUser.uid = uid`.  Returns the
response, the filter and rate-limiter state after the call, the cache after the
call, and the remote operations issued.  Note the order: the rate-limiter check
runs first (line 159), the moderation verdict second (line 168). -/
def handleSaveComment (env : SaveEnv) (uid : String) (st : FilterSt) (rl : RLMap)
    (cache : Cache) (data : SaveData) :
    SaveResp × FilterSt × RLMap × Cache × List RemoteOp :=
  let (admitted, rl2) := rlMapCheck commentLimit rl uid "comment" env.now
  if !admitted then
    (⟨false, some "Rate limit exceeded. Please wait before posting again.", none⟩,
     st, rl2, cache, [])
  else
    match filterContent st data.text.toList with
    | .error e => (⟨false, some e, none⟩, st, rl2, cache, [])
    | .ok (v, st2) =>
      if !v.isClean then
        (⟨false, some (String.intercalate ". " v.violations), none⟩, st2, rl2, cache, [])
      else
        match env.userData with
        | none =>
          -- `userData?.banned` is undefined (falsy), but building `newComment`
          -- reads `userData.displayName` from null: TypeError, caught below.
          (⟨false, some "TypeError: Cannot read properties of null", none⟩,
           st2, rl2, cache, [.getUser uid])
        | some u =>
          if u.banned then
            (⟨false, some "Your account has been suspended.", none⟩,
             st2, rl2, cache, [.getUser uid])
          else
            let crec : CRec :=
              { text := data.text, timestamp := ⌊data.timestamp⌋
                authorId := uid, authorName := u.displayName.getD "Anonymous"
                likes := 0, createdAt := env.now, platform := data.platform }
            let c : CommentRec :=
              { id := env.postName, text := crec.text, timestamp := crec.timestamp
                authorId := crec.authorId, authorName := crec.authorName
                likes := crec.likes, createdAt := crec.createdAt
                platform := crec.platform, replies := [], likedByUser := false }
            (⟨true, none, some c⟩, st2, rl2, cacheCommentLocally cache data.videoId c,
             [.getUser uid, .postComment data.videoId crec,
              .putCommentCount uid (u.commentCount.getD 0 + 1)])

/-! ### `handleLikeComment` (src/background.js, lines 292–333) -/

/-- The remote `likes/{commentId}/{uid}` cells (`true` = present). -/
abbrev Likes := String → String → Bool

/-- Response of `handleLikeComment`. -/
structure LikeResp where
  success : Bool
  liked : Option Bool
  error : Option String
deriving DecidableEq

/-- `rateLimiter.limits.like`. -/
def likeLimit : Limit := ⟨30, 60000⟩

/-- `handleLikeComment(commentId)` with `currentUser.uid = uid` at time `now`:
rate-limit, read the like cell, then DELETE (unlike) or PUT `true` (like). -/
def handleLikeComment (uid : String) (rl : RLMap) (now : Int) (likes : Likes)
    (commentId : String) : LikeResp × RLMap × Likes :=
  let (admitted, rl2) := rlMapCheck likeLimit rl uid "like" now
  if !admitted then
    (⟨false, none, some "Rate limit exceeded."⟩, rl2, likes)
  else if likes commentId uid then
    (⟨true, some false, none⟩, rl2,
     fun c u => if c = commentId ∧ u = uid then false else likes c u)
  else
    (⟨true, some true, none⟩, rl2,
     fun c u => if c = commentId ∧ u = uid then true else likes c u)

/-! ### `getRealTimestamp` (src/content.js, lines 842–1016)

DOM reads are abstracted into an environment record; the numeric parsing done
by the code itself (time-display regexes, the attribute digit regex) is
embedded.  `parseFloat` results are rationals, with `none` standing for an
absent source or a NaN result (every comparison with NaN is false in JS). -/

/-- Digit value at an absolute position, if the character there is a digit
(`\d` is exactly the code points 48–57). -/
def digAt (s : List Char) (k : Nat) : Option Nat :=
  match s[k]? with
  | some c => if 48 ≤ c.toNat ∧ c.toNat ≤ 57 then some (c.toNat - 48) else none
  | none => none

/-- Is the character at position `k` a colon? -/
def colonAt (s : List Char) (k : Nat) : Bool := s[k]? == some ':'

/-- Match `(\d{1,2}):` at position `j`, returning the first capture and the
position after the colon.  The greedy `\d{1,2}` takes two digits when a colon
follows them; backtracking to one digit then needs a colon where a digit
stands, so it fails. -/
def matchG1 (s : List Char) (j : Nat) : Option (Nat × Nat) :=
  match digAt s j with
  | none => none
  | some a =>
    match digAt s (j + 1) with
    | some b => if colonAt s (j + 2) then some (10 * a + b, j + 3) else none
    | none => if colonAt s (j + 1) then some (a, j + 2) else none

/-- The optional `(?::(\d{2}))?` group at position `q`. -/
def matchOptSS (s : List Char) (q : Nat) : Option Nat :=
  if colonAt s q then
    match digAt s (q + 1), digAt s (q + 2) with
    | some e, some f => some (10 * e + f)
    | _, _ => none
  else none

/-- Match `(\d{2})(?::(\d{2}))?` at position `p`. -/
def matchMMSS (s : List Char) (p : Nat) : Option (Nat × Option Nat) :=
  match digAt s p, digAt s (p + 1) with
  | some c, some d => some (10 * c + d, matchOptSS s (p + 2))
  | _, _ => none

/-- Match `/(\d{1,2}):(\d{2})(?::(\d{2}))?/` at position `j`, returning the
captures. -/
def matchTimeAt (s : List Char) (j : Nat) : Option (Nat × Nat × Option Nat) :=
  match matchG1 s j with
  | none => none
  | some (g1, p) =>
    match matchMMSS s p with
    | none => none
    | some (g2, g3) => some (g1, g2, g3)

/-- Leftmost match of the optional-seconds time regex. -/
def scanTime (s : List Char) : Nat → Nat → Option (Nat × Nat × Option Nat)
  | _, 0 => none
  | j, fuel + 1 =>
    match matchTimeAt s j with
    | some r => some r
    | none => scanTime s (j + 1) fuel

/-- `text.match(/(\d{1,2}):(\d{2})(?::(\d{2}))?/)` (also the existence test
`/\d{1,2}:\d{2}/`, whose mandatory part is the same). -/
def firstTimeMatch (s : List Char) : Option (Nat × Nat × Option Nat) :=
  scanTime s 0 (s.length + 1)

/-- Leftmost match of `/(\d{1,2}):(\d{2}):(\d{2})/` (the Netflix display). -/
def scanTime3 (s : List Char) : Nat → Nat → Option (Nat × Nat × Nat)
  | _, 0 => none
  | j, fuel + 1 =>
    match matchTimeAt s j with
    | some (a, b, some c) => some (a, b, c)
    | _ => scanTime3 s (j + 1) fuel

/-- `text.match(/(\d{1,2}):(\d{2}):(\d{2})/)`. -/
def firstTime3Match (s : List Char) : Option (Nat × Nat × Nat) :=
  scanTime3 s 0 (s.length + 1)

/-- Digits to a natural number. -/
def digitsToNat (ds : List Char) : Nat :=
  ds.foldl (fun acc c => acc * 10 + (c.toNat - 48)) 0

/-- `value.match(/^\d+(\.\d+)?$/)` followed by `parseFloat(value)`. -/
def parseDecimal (cs : List Char) : Option ℚ :=
  let intPart := cs.takeWhile Char.isDigit
  let rest := cs.dropWhile Char.isDigit
  if intPart.length == 0 then none
  else
    match rest with
    | [] => some (digitsToNat intPart)
    | '.' :: frac =>
      if 1 ≤ frac.length && frac.all Char.isDigit then
        some ((digitsToNat intPart : ℚ) + (digitsToNat frac : ℚ) / ((10 : ℚ) ^ frac.length))
      else none
    | _ => none

/-- The `progress-bar` element: the shadow slider `(parseFloat value,
parseFloat max)` when a shadow input exists, the `parseFloat` results of the
defined, non-null candidate properties in loop order, and the attribute values. -/
structure PBEnv where
  shadowInput : Option (Option ℚ × Option ℚ)
  props : List (Option ℚ)
  attrs : List String

/-- The DOM/player state `getRealTimestamp` reads. -/
structure TsEnv where
  platform : String
  progressBar : Option PBEnv
  controlTexts : Option (List String)
  netflixText : Option String
  huluText : Option String
  videoCurrentTime : Option ℚ

/-- The texts of the `.controls` area, filtered (trimmed, shorter than 30
characters, containing `\d{1,2}:\d{2}`) and parsed to bounded second counts
(lines 928–954). -/
def controlTotal (g1 g2 : Nat) (g3 : Option Nat) : Nat :=
  match g3 with
  | some s3 => g1 * 3600 + g2 * 60 + s3
  | none => g1 * 60 + g2

def parseControlTimes (texts : List String) : List Nat :=
  (texts.filterMap (fun t =>
    if (jsTrim t.toList).length < 30 && (firstTimeMatch (jsTrim t.toList)).isSome
    then some (jsTrim t.toList) else none)).filterMap (fun tt =>
    match firstTimeMatch tt with
    | some (g1, g2, g3) =>
      if 0 < controlTotal g1 g2 g3 ∧ controlTotal g1 g2 g3 < 86400
      then some (controlTotal g1 g2 g3) else none
    | none => none)

/-- `Math.max(...times)` for a nonempty list. -/
def natMax (t : Nat) (ts : List Nat) : Nat := ts.foldl Nat.max t

/-- The shadow-DOM slider check (lines 858–869):
`if (max > 100 && max < 86400 && value > 0) return Math.floor(value)`. -/
def pbShadow (pb : PBEnv) : Option Int :=
  match pb.shadowInput with
  | some (some v, some m) =>
    if 100 < m ∧ m < 86400 ∧ 0 < v then some ⌊v⌋ else none
  | _ => none

/-- The candidate-property loop (lines 880–899):
first defined property with `0 < value < 86400`. -/
def pbProps (pb : PBEnv) : Option Int :=
  pb.props.findSome? (fun pv =>
    match pv with
    | some v => if 0 < v ∧ v < 86400 then some ⌊v⌋ else none
    | none => none)

/-- The attribute loop (lines 905–921): first all-digit attribute with
`10 < value < 86400`. -/
def pbAttrs (pb : PBEnv) : Option Int :=
  pb.attrs.findSome? (fun a =>
    match parseDecimal a.toList with
    | some v => if 10 < v ∧ v < 86400 then some ⌊v⌋ else none
    | none => none)

/-- The three `progress-bar` probes in source order. -/
def pbTimestamp (pb : PBEnv) : Option Int :=
  match pbShadow pb with
  | some n => some n
  | none =>
    match pbProps pb with
    | some n => some n
    | none => pbAttrs pb

/-- Method 2 (lines 925–964): the largest bounded time display of the
controls area. -/
def controlsTimestamp (env : TsEnv) : Option Int :=
  match env.controlTexts with
  | none => none
  | some texts =>
    match parseControlTimes texts with
    | [] => none
    | t :: ts => some (Int.ofNat (natMax t ts))

/-- The Disney+ branch (lines 844–965): shadow slider, then candidate
properties, then numeric attributes, then the visible time displays of the
controls area — first hit wins. -/
def disneyTimestamp (env : TsEnv) : Option Int :=
  match (match env.progressBar with
         | none => none
         | some pb => pbTimestamp pb) with
  | some n => some n
  | none => controlsTimestamp env

/-- The Netflix branch (lines 968–984): parse `hh:mm:ss` from the
`time-remaining` display — no upper bound is applied. -/
def netflixTimestamp (env : TsEnv) : Option Int :=
  match env.netflixText with
  | none => none
  | some t =>
    match firstTime3Match t.toList with
    | some (h, m, s) => some (Int.ofNat (h * 3600 + m * 60 + s))
    | none => none

/-- The Hulu branch (lines 987–1002): parse `mm:ss` from the time display. -/
def huluTimestamp (env : TsEnv) : Option Int :=
  match env.huluText with
  | none => none
  | some t =>
    match firstTimeMatch t.toList with
    | some (m, s, _) => some (Int.ofNat (m * 60 + s))
    | none => none

/-- The media-element fallback (lines 1005–1009): `Math.floor(currentTime)`
when a video element exists and its clock is past zero. -/
def fallbackTimestamp (env : TsEnv) : Option Int :=
  match env.videoCurrentTime with
  | some q => if 0 < q then some ⌊q⌋ else none
  | none => none

/-- `getRealTimestamp()` — platform branches in source order, then the media
fallback, then `null`. -/
def getRealTimestamp (env : TsEnv) : Option Int :=
  match (if env.platform = "disneyplus" then disneyTimestamp env else none) with
  | some n => some n
  | none =>
    match (if env.platform = "netflix" then netflixTimestamp env else none) with
    | some n => some n
    | none =>
      match (if env.platform = "hulu" then huluTimestamp env else none) with
      | some n => some n
      | none => fallbackTimestamp env

/-- The guard chain of `handleAddComment` (src/content.js, lines 1454–1491):
returns the `(text, timestamp)` pair handed to `saveComment`, or `none` when
the write is blocked (empty text, unclean or throwing filter, or an absent
timestamp). -/
def handleAddCommentSubmits (st : FilterSt) (env : TsEnv) (text : String) :
    Option (String × Int) :=
  if (jsTrim text.toList).length == 0 then none
  else
    match filterContent st text.toList with
    | .error _ => none
    | .ok (v, _) =>
      if !v.isClean then none
      else
        match getRealTimestamp env with
        | none => none
        | some ts => some (text, ts)

/-! ## Helper lemmas -/

theorem rlGet_rlSet (m : RLMap) (u a : String) (v : List Int) :
    rlGet (rlSet m u a v) u a = v := by
  induction m with
  | nil => simp [rlGet, rlSet]
  | cons e rest ih =>
    by_cases h : e.1 = (u, a)
    · simp [rlGet, rlSet, h]
    · simp [rlGet, rlSet, h, ih]

theorem rlMapCheck_fst (lim : Limit) (m : RLMap) (u a : String) (now : Int) :
    (rlMapCheck lim m u a now).1 = (rlCheck lim (rlGet m u a) now).1 := rfl

theorem rlMapCheck_get (lim : Limit) (m : RLMap) (u a : String) (now : Int) :
    rlGet (rlMapCheck lim m u a now).2 u a = (rlCheck lim (rlGet m u a) now).2 := by
  show rlGet (rlSet m u a (rlCheck lim (rlGet m u a) now).2) u a = _
  exact rlGet_rlSet ..

theorem rlCheck_true_snd (lim : Limit) (l : List Int) (now : Int)
    (h : (rlCheck lim l now).1 = true) :
    (rlCheck lim l now).2
      = l.filter (fun t => decide (now - t < lim.window)) ++ [now] := by
  by_cases hc : lim.max ≤ (l.filter (fun t => decide (now - t < lim.window))).length
  · exfalso
    simp [rlCheck, hc] at h
  · simp [rlCheck, hc]

theorem length_filter_lt_of_mem {α : Type} {p : α → Bool} {l : List α} {x : α}
    (hx : x ∈ l) (hpx : p x = false) : (l.filter p).length < l.length := by
  induction l with
  | nil => cases hx
  | cons a as ih =>
    rcases List.mem_cons.mp hx with rfl | hx'
    · have := List.length_filter_le p as
      simp [List.filter_cons, hpx]
      omega
    · by_cases hpa : p a = true
      · have := ih hx'
        simp [List.filter_cons, hpa]
        omega
      · have := ih hx'
        have h2 := List.length_filter_le p as
        simp [List.filter_cons, hpa]
        omega

/-! ## Claim theorems -/

/-- C1: `filterContent` is claimed to be deterministic — two calls with the
same text return equal verdicts.  The code violates this: the spam patterns
are `/g` regexes whose `lastIndex` survives between calls, so
`filterContent("aaaaaaaaaaa")` blocks (spam) on a fresh instance and allows on
the immediately following call with the same argument. -/
theorem c1_filter_not_deterministic :
    (filterContent initFilterSt ("aaaaaaaaaaa".toList)).toOption.map
        (fun p => (p.1.isClean, p.1.action)) = some (false, "block") ∧
    ((filterContent initFilterSt ("aaaaaaaaaaa".toList)).toOption.bind (fun p =>
        (filterContent p.2 ("aaaaaaaaaaa".toList)).toOption.map
          (fun q => (q.1.isClean, q.1.action)))) = some (true, "allow") := by
  constructor
  · decide
  · decide

/-- C4: redaction is claimed to be a fixed point, with the first
`filteredText` reflecting all redactions.  The code violates this: a pattern
hit overwrites `result.filtered` with `text.replace(...)`, discarding earlier
word-list redactions.  On "damn cunt" the first pass returns
filteredText "**** cunt", and a second pass over that output still reports the
blocklist violation for "cunt". -/
theorem c4_redaction_not_fixed_point :
    (filterContent initFilterSt ("damn cunt".toList)).toOption.map
        (fun p => (p.1.filteredText, p.1.isClean, p.1.action))
      = some ("**** cunt".toList, false, "block") ∧
    ((filterContent initFilterSt ("damn cunt".toList)).toOption.bind (fun p =>
        (filterContent p.2 p.1.filteredText).toOption.map
          (fun q => q.1.violations.contains "Inappropriate language: cunt")))
      = some true := by
  constructor
  · decide
  · decide

/-- C8: `filterContent` is claimed total (never throws).  The code violates
this: for input "n***a", the word list matches and
`new RegExp("n***a", "gi")` is a syntax error (`*` after `*` has nothing to
repeat), so `filterContent` throws instead of returning a verdict. -/
theorem c8_filter_throws_on_starred_word :
    (filterContent initFilterSt ("n***a".toList)).toOption = none ∧
    filterContent initFilterSt ("n***a".toList)
      = .error "SyntaxError: Invalid regular expression: n***a" := by
  constructor
  · decide
  · rfl

/-- C2: sliding-window admission.  (a) With `max` admissions recorded inside
the trailing window, a further check is rejected.  (b) Once the window has
elapsed since some recorded admission (in particular the oldest), a check with
at most `max` recorded entries is admitted.  (c) The concrete
`{max: 2, windowMillis: 1000}` trace: t=0 admit, t=100 admit, t=200 reject,
t=1101 admit. -/
theorem c2_rate_limiter_window (lim : Limit) (l : List Int) (now t0 : Int) :
    ((∀ t ∈ l, now - t < lim.window) → lim.max ≤ l.length →
      (rlCheck lim l now).1 = false) ∧
    (t0 ∈ l → lim.window ≤ now - t0 → l.length ≤ lim.max →
      (rlCheck lim l now).1 = true) ∧
    rlCheck ⟨2, 1000⟩ [] 0 = (true, [0]) ∧
    rlCheck ⟨2, 1000⟩ [0] 100 = (true, [0, 100]) ∧
    rlCheck ⟨2, 1000⟩ [0, 100] 200 = (false, [0, 100]) ∧
    rlCheck ⟨2, 1000⟩ [0, 100] 1101 = (true, [1101]) := by
  refine ⟨?_, ?_, by decide, by decide, by decide, by decide⟩
  · intro hall hmax
    have hf : l.filter (fun t => decide (now - t < lim.window)) = l :=
      List.filter_eq_self.mpr (fun a ha => decide_eq_true (hall a ha))
    have hge : lim.max ≤ (l.filter (fun t => decide (now - t < lim.window))).length := by
      rw [hf]; exact hmax
    simp [rlCheck, hge]
  · intro ht0 hw hlen
    have hp : (fun t => decide (now - t < lim.window)) t0 = false :=
      decide_eq_false (not_lt.mpr hw)
    have hlt := @length_filter_lt_of_mem Int (fun t => decide (now - t < lim.window)) l t0 ht0 hp
    have hne : ¬ lim.max ≤ (l.filter (fun t => decide (now - t < lim.window))).length := by
      omega
    simp [rlCheck, hne]

/-- C2 witness: the general parts of `c2_rate_limiter_window` instantiated on
the `{max: 2, windowMillis: 1000}` example state. -/
theorem c2_rate_limiter_window_witness :
    (rlCheck ⟨2, 1000⟩ [0, 100] 200).1 = false ∧
    (rlCheck ⟨2, 1000⟩ [0, 100] 1101).1 = true := by
  refine ⟨(c2_rate_limiter_window ⟨2, 1000⟩ [0, 100] 200 0).1 ?_ ?_,
          (c2_rate_limiter_window ⟨2, 1000⟩ [0, 100] 1101 0).2.1 ?_ ?_ ?_⟩
  · decide
  · decide
  · decide
  · decide
  · decide

/-- C9: the per-(actor, action) window list never exceeds the configured max
after a check (given it did not before), and a rejected check leaves the list
exactly equal to the pruned list — no timestamp is recorded on rejection. -/
theorem c9_rate_window_invariant (lim : Limit) (m : RLMap) (u a : String) (now : Int)
    (h : (rlGet m u a).length ≤ lim.max) :
    (rlGet (rlMapCheck lim m u a now).2 u a).length ≤ lim.max ∧
    ((rlMapCheck lim m u a now).1 = false →
      rlGet (rlMapCheck lim m u a now).2 u a
        = (rlGet m u a).filter (fun t => decide (now - t < lim.window))) := by
  rw [rlMapCheck_get, rlMapCheck_fst]
  have hle := List.length_filter_le (fun t => decide (now - t < lim.window)) (rlGet m u a)
  by_cases hc : lim.max ≤ ((rlGet m u a).filter (fun t => decide (now - t < lim.window))).length
  · constructor
    · simp [rlCheck, hc]
      omega
    · intro _
      simp [rlCheck, hc]
  · constructor
    · simp [rlCheck, hc]
      omega
    · intro hfalse
      exfalso
      simp [rlCheck, hc] at hfalse

/-- C9 witness: the invariant at a concrete state. -/
theorem c9_rate_window_invariant_witness :
    (rlGet (rlMapCheck ⟨2, 1000⟩ [] "u" "comment" 0).2 "u" "comment").length ≤ 2 := by
  exact (c9_rate_window_invariant ⟨2, 1000⟩ [] "u" "comment" 0 (by decide)).1

/-- C3 counterexample: the claim says that for a submission failing moderation
no rate-limiter admission timestamp is recorded.  On a fresh state with text
"fuck" (which fails moderation), the response does report failure, no remote
operation is issued — but the comment window for the actor has recorded the
admission timestamp, because `handleSaveComment` runs the rate limiter before
the moderation check. -/
theorem c3_counterexample :
    ((handleSaveComment ⟨0, some ⟨false, some "U", some 0⟩, "id1"⟩ "u" initFilterSt []
        (fun _ => none) ⟨"v", "fuck", 3, "netflix"⟩).1.success = false) ∧
    ((filterContent initFilterSt ("fuck".toList)).toOption.map (fun p => p.1.isClean)
      = some false) ∧
    ((handleSaveComment ⟨0, some ⟨false, some "U", some 0⟩, "id1"⟩ "u" initFilterSt []
        (fun _ => none) ⟨"v", "fuck", 3, "netflix"⟩).2.2.2.2 = []) ∧
    ¬ (rlGet (handleSaveComment ⟨0, some ⟨false, some "U", some 0⟩, "id1"⟩ "u" initFilterSt []
        (fun _ => none) ⟨"v", "fuck", 3, "netflix"⟩).2.2.1 "u" "comment" = []) := by
  refine ⟨by decide, by decide, by decide, by decide⟩

/-- C3 amended: on the comment write path the rate-limiter admission check runs
before the moderation verdict.  For every submission admitted by the limiter
whose text fails moderation, the response reports failure with the joined
violation reasons, no remote operation is issued, the cache is untouched — but
an admission timestamp for the comment window of the actor has been recorded. -/
theorem c3_moderation_failure_response (env : SaveEnv) (uid : String)
    (st st2 : FilterSt) (rl : RLMap) (cache : Cache) (data : SaveData) (v : Verdict)
    (hadm : (rlMapCheck commentLimit rl uid "comment" env.now).1 = true)
    (hfilter : filterContent st data.text.toList = .ok (v, st2))
    (hdirty : v.isClean = false) :
    handleSaveComment env uid st rl cache data
      = (⟨false, some (String.intercalate ". " v.violations), none⟩, st2,
         (rlMapCheck commentLimit rl uid "comment" env.now).2, cache, []) ∧
    rlGet (rlMapCheck commentLimit rl uid "comment" env.now).2 uid "comment"
      = (rlGet rl uid "comment").filter
          (fun t => decide (env.now - t < commentLimit.window)) ++ [env.now] := by
  constructor
  · rcases hE : rlMapCheck commentLimit rl uid "comment" env.now with ⟨ok, rl2⟩
    rw [hE] at hadm
    obtain rfl : ok = true := hadm
    simp only [String.toList] at hfilter
    simp [handleSaveComment, hE, hfilter, hdirty]
  · rw [rlMapCheck_get]
    exact rlCheck_true_snd _ _ _ (by rw [← rlMapCheck_fst]; exact hadm)

/-- C3 witness: `c3_moderation_failure_response` applied to the concrete
"fuck" submission on a fresh state. -/
theorem c3_moderation_failure_response_witness :
    handleSaveComment ⟨0, some ⟨false, some "U", some 0⟩, "id1"⟩ "u" initFilterSt []
        (fun _ => none) ⟨"v", "fuck", 3, "netflix"⟩
      = (⟨false, some (String.intercalate ". "
            ["Inappropriate language: fuck", "Inappropriate language detected",
             "Inappropriate language detected", "Inappropriate language detected"]), none⟩,
         initFilterSt, (rlMapCheck commentLimit [] "u" "comment" 0).2, (fun _ => none), []) ∧
    rlGet (rlMapCheck commentLimit [] "u" "comment" 0).2 "u" "comment"
      = (rlGet [] "u" "comment").filter
          (fun t => decide ((0 : Int) - t < commentLimit.window)) ++ [0] := by
  exact c3_moderation_failure_response ⟨0, some ⟨false, some "U", some 0⟩, "id1"⟩ "u"
    initFilterSt initFilterSt [] (fun _ => none) ⟨"v", "fuck", 3, "netflix"⟩
    ⟨false, "****".toList,
     ["Inappropriate language: fuck", "Inappropriate language detected",
      "Inappropriate language detected", "Inappropriate language detected"], "block"⟩
    (by decide) (by rfl) (by rfl)

/-- C10: the like operation is a toggle.  For an admitted call: with no
existing like by the actor, the call records the like and returns
`liked = true`; with an existing like, it removes it and returns
`liked = false`; other cells are untouched.  Two consecutive admitted calls
starting from the unliked state return `true` then `false` and restore the
remote like state exactly. -/
theorem c10_like_toggle (uid cid : String) (rl : RLMap) (now : Int) (likes : Likes)
    (hadm : (rlMapCheck likeLimit rl uid "like" now).1 = true) :
    (likes cid uid = false →
      (handleLikeComment uid rl now likes cid).1.liked = some true ∧
      (handleLikeComment uid rl now likes cid).2.2 cid uid = true) ∧
    (likes cid uid = true →
      (handleLikeComment uid rl now likes cid).1.liked = some false ∧
      (handleLikeComment uid rl now likes cid).2.2 cid uid = false) ∧
    (∀ c u, ¬(c = cid ∧ u = uid) →
      (handleLikeComment uid rl now likes cid).2.2 c u = likes c u) ∧
    (handleLikeComment uid rl now likes cid).1.success = true ∧
    (∀ now2,
      (rlMapCheck likeLimit (handleLikeComment uid rl now likes cid).2.1 uid "like" now2).1
        = true →
      likes cid uid = false →
      (handleLikeComment uid (handleLikeComment uid rl now likes cid).2.1 now2
          (handleLikeComment uid rl now likes cid).2.2 cid).1.liked = some false ∧
      (handleLikeComment uid (handleLikeComment uid rl now likes cid).2.1 now2
          (handleLikeComment uid rl now likes cid).2.2 cid).2.2 = likes) := by
  rcases hE : rlMapCheck likeLimit rl uid "like" now with ⟨ok, rl2⟩
  rw [hE] at hadm
  obtain rfl : ok = true := hadm
  refine ⟨?_, ?_, ?_, ?_, ?_⟩
  · intro h0
    simp [handleLikeComment, hE, h0]
  · intro h1
    simp [handleLikeComment, hE, h1]
  · intro c u hcu
    by_cases h1 : likes cid uid
    · have hlk : (handleLikeComment uid rl now likes cid).2.2
          = fun a b => if a = cid ∧ b = uid then false else likes a b := by
        simp [handleLikeComment, hE, h1]
      rw [hlk]
      exact if_neg hcu
    · simp only [Bool.not_eq_true] at h1
      have hlk : (handleLikeComment uid rl now likes cid).2.2
          = fun a b => if a = cid ∧ b = uid then true else likes a b := by
        simp [handleLikeComment, hE, h1]
      rw [hlk]
      exact if_neg hcu
  · by_cases h1 : likes cid uid
    · simp [handleLikeComment, hE, h1]
    · simp only [Bool.not_eq_true] at h1
      simp [handleLikeComment, hE, h1]
  · intro now2 hadm2 h0
    have hst1 : (handleLikeComment uid rl now likes cid).2.1 = rl2 := by
      simp [handleLikeComment, hE, h0]
    have hlk1 : (handleLikeComment uid rl now likes cid).2.2
        = fun c u => if c = cid ∧ u = uid then true else likes c u := by
      simp [handleLikeComment, hE, h0]
    rw [hst1] at hadm2
    rw [hst1, hlk1]
    rcases hE2 : rlMapCheck likeLimit rl2 uid "like" now2 with ⟨ok2, rl3⟩
    rw [hE2] at hadm2
    obtain rfl : ok2 = true := hadm2
    constructor
    · simp [handleLikeComment, hE2]
    · simp only [handleLikeComment, hE2]
      simp only [Bool.not_true, Bool.false_eq_true, if_false, and_self, if_true, reduceIte]
      funext c u
      by_cases hcu : c = cid ∧ u = uid
      · simp only [if_pos hcu, hcu.1, hcu.2]
        exact h0.symm
      · simp [if_neg hcu]

/-- C5 counterexample: the claim says a failed load returns the same set of
annotations as the last successful load or append.  Sequence on key "v": a
successful load finds one comment (cached); a second successful load finds a
`null` comments object and returns the empty list — without updating the
cache; a third, failing load then returns the one-comment cached snapshot,
which differs from the empty list the last successful load returned. -/
theorem c5_counterexample :
    ((handleLoadComments none
        (.ok ⟨none, fun _ => none, fun _ => none⟩)
        (handleLoadComments none
          (.ok ⟨some [("a", ⟨"hello", 5, "u1", "U1", 0, 0, "netflix"⟩)],
                fun _ => none, fun _ => none⟩)
          (fun _ => none) "v").2 "v").1
      = ⟨true, []⟩) ∧
    ((handleLoadComments none .fail
        (handleLoadComments none
          (.ok ⟨none, fun _ => none, fun _ => none⟩)
          (handleLoadComments none
            (.ok ⟨some [("a", ⟨"hello", 5, "u1", "U1", 0, 0, "netflix"⟩)],
                  fun _ => none, fun _ => none⟩)
            (fun _ => none) "v").2 "v").2 "v").1.comments
      = [⟨"a", "hello", 5, "u1", "U1", 0, 0, "netflix", [], false⟩]) ∧
    [(⟨"a", "hello", 5, "u1", "U1", 0, 0, "netflix", [], false⟩ : CommentRec)]
      ≠ ([] : List CommentRec) := by
  refine ⟨by decide, by decide, by decide⟩

/-- C5 amended: on remote failure, `load` reports success and returns the
cached snapshot for the key (empty if never written); the cache holds exactly
the list returned by the last data-bearing successful load, or the list built
by the last append — a successful load that finds no data returns the empty
list without updating the cache. -/
theorem c5_load_failure_fallback (uid : Option String) (o : LoadOk) (cache : Cache)
    (vid : String) (data : List (String × CRec)) (c : CommentRec) :
    handleLoadComments uid .fail cache vid = (⟨true, (cache vid).getD []⟩, cache) ∧
    (o.data = some data →
      (handleLoadComments uid (.ok o) cache vid).2 vid
        = some ((handleLoadComments uid (.ok o) cache vid).1.comments)) ∧
    (cacheCommentLocally cache vid c) vid
      = some (sortComments ((cache vid).getD [] ++ [c])) := by
  refine ⟨rfl, ?_, ?_⟩
  · intro h
    simp [handleLoadComments, h]
  · simp [cacheCommentLocally]

/-- C5 witness: the fallback and cache-update equations at a concrete state. -/
theorem c5_load_failure_fallback_witness :
    (handleLoadComments none
        (.ok ⟨some [("a", ⟨"hello", 5, "u1", "U1", 0, 0, "netflix"⟩)],
              fun _ => none, fun _ => none⟩)
        (fun _ => none) "v").2 "v"
      = some ((handleLoadComments none
          (.ok ⟨some [("a", ⟨"hello", 5, "u1", "U1", 0, 0, "netflix"⟩)],
                fun _ => none, fun _ => none⟩)
          (fun _ => none) "v").1.comments) :=
  (c5_load_failure_fallback none
    ⟨some [("a", ⟨"hello", 5, "u1", "U1", 0, 0, "netflix"⟩)],
     fun _ => none, fun _ => none⟩
    (fun _ => none) "v" [("a", ⟨"hello", 5, "u1", "U1", 0, 0, "netflix"⟩)]
    ⟨"", "", 0, "", "", 0, 0, "", [], false⟩).2.1 rfl

/-- C10 witness: the toggle on a concrete fresh state. -/
theorem c10_like_toggle_witness :
    (handleLikeComment "u" [] 0 (fun _ _ => false) "c").1.liked = some true ∧
    (handleLikeComment "u" (handleLikeComment "u" [] 0 (fun _ _ => false) "c").2.1 1
       (handleLikeComment "u" [] 0 (fun _ _ => false) "c").2.2 "c").1.liked = some false := by
  have h := c10_like_toggle "u" "c" [] 0 (fun _ _ => false) (by decide)
  exact ⟨(h.1 rfl).1, (h.2.2.2.2 1 (by decide) rfl).1⟩

theorem sortComments_sorted (l : List CommentRec) :
    (sortComments l).Pairwise (fun a b => a.timestamp ≤ b.timestamp) :=
  List.sorted_insertionSort _ l

theorem applyReplies_timestamp (o : LoadOk) (c : CommentRec) :
    (applyReplies o c).timestamp = c.timestamp := by
  unfold applyReplies
  split <;> rfl

theorem applyLikes_timestamp (uid : Option String) (o : LoadOk) (c : CommentRec) :
    (applyLikes uid o c).timestamp = c.timestamp := by
  unfold applyLikes
  split <;> rfl

theorem enrich_timestamp (uid : Option String) (o : LoadOk) (c : CommentRec) :
    (enrich uid o c).timestamp = c.timestamp := by
  unfold enrich
  rw [applyLikes_timestamp, applyReplies_timestamp]

/-- C6: a successful remote load returns the comment list sorted ascending by
timestamp (the stored playback position), and appending a new comment through
the cache keeps the cached list sorted. -/
theorem c6_load_ordering (uid : Option String) (o : LoadOk) (cache : Cache)
    (vid : String) (c : CommentRec) :
    ((handleLoadComments uid (.ok o) cache vid).1.comments).Pairwise
      (fun a b => a.timestamp ≤ b.timestamp) ∧
    (((cacheCommentLocally cache vid c) vid).getD []).Pairwise
      (fun a b => a.timestamp ≤ b.timestamp) := by
  constructor
  · cases hd : o.data with
    | none => simp [handleLoadComments, hd]
    | some data =>
      simp only [handleLoadComments, hd]
      apply List.Pairwise.map
      · intro a b hab
        rw [enrich_timestamp, enrich_timestamp]
        exact hab
      · exact sortComments_sorted _
  · simp only [cacheCommentLocally]
    simp
    exact sortComments_sorted _

theorem digAt_le_9 {s : List Char} {k d : Nat} (h : digAt s k = some d) : d ≤ 9 := by
  unfold digAt at h
  split at h
  · split at h
    · rename_i hcond
      injection h with h2
      omega
    · exact Option.noConfusion h
  · exact Option.noConfusion h

theorem matchG1_bound {s : List Char} {j g1 p : Nat}
    (h : matchG1 s j = some (g1, p)) : g1 ≤ 99 := by
  unfold matchG1 at h
  split at h
  · exact Option.noConfusion h
  · rename_i a ha
    have ha9 := digAt_le_9 ha
    split at h
    · rename_i b hb
      have hb9 := digAt_le_9 hb
      split at h
      · injection h with h2
        cases h2
        omega
      · exact Option.noConfusion h
    · split at h
      · injection h with h2
        cases h2
        omega
      · exact Option.noConfusion h

theorem matchOptSS_bound {s : List Char} {q x : Nat}
    (h : matchOptSS s q = some x) : x ≤ 99 := by
  unfold matchOptSS at h
  split at h
  · split at h
    · rename_i e f he hf
      have := digAt_le_9 he
      have := digAt_le_9 hf
      injection h with h2
      omega
    · exact Option.noConfusion h
  · exact Option.noConfusion h

theorem matchMMSS_bound {s : List Char} {p g2 : Nat} {g3 : Option Nat}
    (h : matchMMSS s p = some (g2, g3)) :
    g2 ≤ 99 ∧ ∀ x, g3 = some x → x ≤ 99 := by
  unfold matchMMSS at h
  split at h
  · rename_i c d hc hd
    have hc9 := digAt_le_9 hc
    have hd9 := digAt_le_9 hd
    injection h with h2
    cases h2
    exact ⟨by omega, fun x hx => matchOptSS_bound hx⟩
  · exact Option.noConfusion h

theorem matchTimeAt_bounds {s : List Char} {j g1 g2 : Nat} {g3 : Option Nat}
    (h : matchTimeAt s j = some (g1, g2, g3)) :
    g1 ≤ 99 ∧ g2 ≤ 99 ∧ ∀ x, g3 = some x → x ≤ 99 := by
  unfold matchTimeAt at h
  split at h
  · exact Option.noConfusion h
  · rename_i a p hg1
    split at h
    · exact Option.noConfusion h
    · rename_i b g hmm
      injection h with h2
      cases h2
      exact ⟨matchG1_bound hg1, (matchMMSS_bound hmm).1, (matchMMSS_bound hmm).2⟩

theorem scanTime_exists {s : List Char} {r : Nat × Nat × Option Nat} :
    ∀ {j fuel : Nat}, scanTime s j fuel = some r → ∃ k, matchTimeAt s k = some r := by
  intro j fuel
  induction fuel generalizing j with
  | zero => intro h; exact Option.noConfusion h
  | succ n ih =>
    intro h
    unfold scanTime at h
    split at h
    · rename_i r' hm
      injection h with h2
      subst h2
      exact ⟨j, hm⟩
    · exact ih h

theorem firstTimeMatch_bounds {s : List Char} {g1 g2 : Nat} {g3 : Option Nat}
    (h : firstTimeMatch s = some (g1, g2, g3)) :
    g1 ≤ 99 ∧ g2 ≤ 99 ∧ ∀ x, g3 = some x → x ≤ 99 := by
  obtain ⟨k, hk⟩ := scanTime_exists h
  exact matchTimeAt_bounds hk

theorem natMax_lt {B : Nat} : ∀ (t : Nat) (ts : List Nat),
    t < B → (∀ x ∈ ts, x < B) → natMax t ts < B := by
  intro t ts
  induction ts generalizing t with
  | nil => intro ht _; simpa [natMax] using ht
  | cons y ys ih =>
    intro ht hall
    have hy := hall y (by simp)
    have hmax : Nat.max t y < B := Nat.max_lt.mpr ⟨ht, hy⟩
    simpa [natMax] using ih (Nat.max t y) hmax (fun x hx => hall x (by simp [hx]))

theorem parseControlTimes_bound {texts : List String} {x : Nat}
    (h : x ∈ parseControlTimes texts) : 0 < x ∧ x < 86400 := by
  unfold parseControlTimes at h
  rw [List.mem_filterMap] at h
  obtain ⟨tt, _, htt⟩ := h
  split at htt
  · split at htt
    · rename_i hcond
      injection htt with h2
      subst h2
      exact hcond
    · exact Option.noConfusion htt
  · exact Option.noConfusion htt

theorem controlsTimestamp_bound (env : TsEnv) {n : Int}
    (h : controlsTimestamp env = some n) : 0 ≤ n ∧ n < 86400 := by
  unfold controlsTimestamp at h
  split at h
  · exact Option.noConfusion h
  · rename_i texts htexts
    split at h
    · exact Option.noConfusion h
    · rename_i t ts hts
      injection h with h2
      subst h2
      have hub : natMax t ts < 86400 := by
        refine natMax_lt t ts ?_ ?_
        · exact (@parseControlTimes_bound texts t (by rw [hts]; simp)).2
        · intro x hx
          exact (@parseControlTimes_bound texts x
            (by rw [hts]; exact List.mem_cons_of_mem t hx)).2
      constructor
      · simp only [Int.ofNat_eq_coe]
        omega
      · simp only [Int.ofNat_eq_coe]
        omega

theorem pbShadow_bound {pb : PBEnv} {n : Int}
    (hwf : ∀ v m, pb.shadowInput = some (some v, some m) → v ≤ m)
    (h : pbShadow pb = some n) : 0 ≤ n ∧ n < 86400 := by
  unfold pbShadow at h
  split at h
  · rename_i v m hsi
    split at h
    · rename_i hcond
      injection h with h2
      subst h2
      obtain ⟨h100, h864, hv⟩ := hcond
      refine ⟨Int.floor_nonneg.mpr hv.le, ?_⟩
      have hvm : v < (86400 : ℚ) := lt_of_le_of_lt (hwf v m hsi) h864
      exact Int.floor_lt.mpr (by exact_mod_cast hvm)
    · exact Option.noConfusion h
  · exact Option.noConfusion h

theorem pbProps_bound {pb : PBEnv} {n : Int}
    (h : pbProps pb = some n) : 0 ≤ n ∧ n < 86400 := by
  unfold pbProps at h
  obtain ⟨pv, _, hpv⟩ := List.exists_of_findSome?_eq_some h
  split at hpv
  · rename_i v
    split at hpv
    · rename_i hcond
      injection hpv with h2
      subst h2
      exact ⟨Int.floor_nonneg.mpr hcond.1.le, Int.floor_lt.mpr (by exact_mod_cast hcond.2)⟩
    · exact Option.noConfusion hpv
  · exact Option.noConfusion hpv

theorem pbAttrs_bound {pb : PBEnv} {n : Int}
    (h : pbAttrs pb = some n) : 0 ≤ n ∧ n < 86400 := by
  unfold pbAttrs at h
  obtain ⟨a, _, ha⟩ := List.exists_of_findSome?_eq_some h
  split at ha
  · rename_i v hv
    split at ha
    · rename_i hcond
      injection ha with h2
      subst h2
      have h0v : (0 : ℚ) ≤ v := le_of_lt (lt_trans (by norm_num) hcond.1)
      exact ⟨Int.floor_nonneg.mpr h0v, Int.floor_lt.mpr (by exact_mod_cast hcond.2)⟩
    · exact Option.noConfusion ha
  · exact Option.noConfusion ha

theorem pbTimestamp_bound {pb : PBEnv} {n : Int}
    (hwf : ∀ v m, pb.shadowInput = some (some v, some m) → v ≤ m)
    (h : pbTimestamp pb = some n) : 0 ≤ n ∧ n < 86400 := by
  unfold pbTimestamp at h
  split at h
  · rename_i n' hsh
    injection h with h2
    subst h2
    exact pbShadow_bound hwf hsh
  · split at h
    · rename_i n' hpr
      injection h with h2
      subst h2
      exact pbProps_bound hpr
    · exact pbAttrs_bound h

theorem disneyTimestamp_bound {env : TsEnv} {n : Int}
    (hwf : ∀ pb v m, env.progressBar = some pb →
      pb.shadowInput = some (some v, some m) → v ≤ m)
    (h : disneyTimestamp env = some n) : 0 ≤ n ∧ n < 86400 := by
  unfold disneyTimestamp at h
  split at h
  · rename_i n' hn'
    injection h with h2
    subst h2
    split at hn'
    · exact Option.noConfusion hn'
    · rename_i pb hpb
      exact pbTimestamp_bound (fun v m => hwf pb v m hpb) hn'
  · exact controlsTimestamp_bound env h

theorem huluTimestamp_bound (env : TsEnv) {n : Int}
    (h : huluTimestamp env = some n) : 0 ≤ n ∧ n < 86400 := by
  unfold huluTimestamp at h
  split at h
  · exact Option.noConfusion h
  · rename_i t ht
    split at h
    · rename_i m s g3 hm
      obtain ⟨hm99, hs99, _⟩ := firstTimeMatch_bounds hm
      injection h with h2
      subst h2
      constructor
      · simp only [Int.ofNat_eq_coe]
        omega
      · simp only [Int.ofNat_eq_coe]
        omega
    · exact Option.noConfusion h

theorem netflixTimestamp_nonneg (env : TsEnv) {n : Int}
    (h : netflixTimestamp env = some n) : 0 ≤ n := by
  unfold netflixTimestamp at h
  split at h
  · exact Option.noConfusion h
  · rename_i t ht
    split at h
    · rename_i hh mm ss hm
      injection h with h2
      subst h2
      simp only [Int.ofNat_eq_coe]
      omega
    · exact Option.noConfusion h

theorem fallbackTimestamp_nonneg (env : TsEnv) {n : Int}
    (h : fallbackTimestamp env = some n) : 0 ≤ n := by
  unfold fallbackTimestamp at h
  split at h
  · rename_i q hq
    split at h
    · rename_i hpos
      injection h with h2
      subst h2
      exact Int.floor_nonneg.mpr hpos.le
    · exact Option.noConfusion h
  · exact Option.noConfusion h

/-- C7 counterexample: the claim says every returned position lies in
[0, 86400) on every platform branch.  The Netflix branch applies no upper
bound: with the time display reading "25:00:00" it returns 90000 seconds. -/
theorem c7_counterexample :
    getRealTimestamp ⟨"netflix", none, none, some "25:00:00", none, none⟩ = some 90000 ∧
    ¬ (90000 : Int) < 86400 := by
  constructor
  · decide
  · decide

/-- C7 amended: every value `getRealTimestamp` returns is either absent or a
non-negative integer, and an absent result blocks the dependent comment write.
The [0, 86400) sanity bound holds for the Disney+ branch (given the DOM
invariant that the value of a range input does not exceed its max) and for the Hulu
branch, but not for the Netflix branch (hours up to 99 are accepted) nor for
the media-element fallback, which are merely non-negative. -/
theorem c7_timestamp_range (env : TsEnv)
    (hwf : ∀ pb v m, env.progressBar = some pb →
      pb.shadowInput = some (some v, some m) → v ≤ m) :
    (∀ n, getRealTimestamp env = some n → 0 ≤ n) ∧
    (∀ n, disneyTimestamp env = some n → 0 ≤ n ∧ n < 86400) ∧
    (∀ n, huluTimestamp env = some n → 0 ≤ n ∧ n < 86400) ∧
    (∀ n, netflixTimestamp env = some n → 0 ≤ n) ∧
    (getRealTimestamp env = none →
      ∀ st text, handleAddCommentSubmits st env text = none) := by
  refine ⟨?_, fun n h => disneyTimestamp_bound hwf h,
          fun n h => huluTimestamp_bound env h,
          fun n h => netflixTimestamp_nonneg env h, ?_⟩
  · intro n h
    unfold getRealTimestamp at h
    split at h
    · rename_i n' hd
      injection h with h2
      subst h2
      split at hd
      · exact (disneyTimestamp_bound hwf hd).1
      · exact Option.noConfusion hd
    · split at h
      · rename_i n' hn
        injection h with h2
        subst h2
        split at hn
        · exact netflixTimestamp_nonneg env hn
        · exact Option.noConfusion hn
      · split at h
        · rename_i n' hh
          injection h with h2
          subst h2
          split at hh
          · exact (huluTimestamp_bound env hh).1
          · exact Option.noConfusion hh
        · exact fallbackTimestamp_nonneg env h
  · intro hnone st text
    unfold handleAddCommentSubmits
    split
    · rfl
    · split
      · rfl
      · split
        · rfl
        · rw [hnone]

/-- C7 witness: `c7_timestamp_range` at a Hulu display reading "12:34". -/
theorem c7_timestamp_range_witness :
    huluTimestamp ⟨"hulu", none, none, none, some "12:34", none⟩ = some 754 ∧
    (0 : Int) ≤ 754 ∧ (754 : Int) < 86400 := by
  have h := c7_timestamp_range ⟨"hulu", none, none, none, some "12:34", none⟩
    (fun pb v m h1 _ => Option.noConfusion h1)
  exact ⟨rfl, h.2.2.1 754 rfl⟩

end VC
